import Mathlib

/-!
Verification of the sensor-log pipeline in
`src/logging_task/do_it_yourself.py` and `src/logging/do_it_yourself.py`.

The embedding works on `List Char` for the string-manipulation primitives and
on `String` at the record/aggregator interface.  Python's Unicode-aware
`str.strip` / `str.upper` are modelled on their ASCII fragment, which is the
fragment the log format exercises.
-/

set_option maxRecDepth 8192

/-- ASCII whitespace stripped by Python `str.strip()`. -/
def isSpc (c : Char) : Bool :=
  c == ' ' || c == '\t' || c == '\n' || c == '\r' || c == '\x0b' || c == '\x0c'

/-- ASCII decimal digit, as accepted by Python `int`. -/
def isDig (c : Char) : Bool := 48 ≤ c.toNat && c.toNat ≤ 57

/-- Numeric value of a digit character. -/
def digVal (c : Char) : Nat := c.toNat - 48

/-- Python `str.strip()` (both ends, ASCII whitespace). -/
def stripWS (l : List Char) : List Char :=
  ((l.dropWhile isSpc).reverse.dropWhile isSpc).reverse

/-- Python `str.strip("'")`: removes every leading and trailing apostrophe. -/
def stripQuotes (l : List Char) : List Char :=
  ((l.dropWhile (· == '\'')).reverse.dropWhile (· == '\'')).reverse

/-- Splits at the first occurrence of `sep`, as in Python `s.split(sep, 1)`
when `sep` occurs; `none` when `sep` does not occur. -/
def splitFirst (sep : List Char) : List Char → Option (List Char × List Char)
  | [] => if sep.isPrefixOf ([] : List Char) then some ([], []) else none
  | c :: rest =>
    if sep.isPrefixOf (c :: rest) then some ([], (c :: rest).drop sep.length)
    else (splitFirst sep rest).map fun p => (c :: p.1, p.2)

/-- Python `s.split(";")`: split on every semicolon. -/
def splitSemi : List Char → List (List Char)
  | [] => [[]]
  | c :: rest =>
    if c == ';' then [] :: splitSemi rest
    else
      match splitSemi rest with
      | [] => [[c]]
      | h :: t => (c :: h) :: t

/-- The `"> "` marker of the log format. -/
def markerGT : List Char := ['>', ' ']

/-- Python `sep in line` for the marker. -/
def hasMarker (l : List Char) : Bool := (splitFirst markerGT l).isSome

/-- Python `str.upper()` on the ASCII fragment. -/
def upperStr (l : List Char) : List Char := l.map Char.toUpper

/-- A structured record extracted from one log line
(`parse_log_line`'s result dictionary). -/
structure Record where
  sensor_id : String
  sp1 : String
  sp2 : String
  state : String
deriving DecidableEq, Repr

/-- Python exceptions that the parser's `try` block can catch. -/
inductive PyErr where
  | indexError
  | attributeError
deriving DecidableEq, Repr

/-- Python list indexing `l[i]` for `i ≥ 0`: raises `IndexError` out of range. -/
def pyIndexE {α : Type} (l : List α) (i : Nat) : Except PyErr α :=
  match l[i]? with
  | some x => Except.ok x
  | none => Except.error PyErr.indexError

/-- Python list indexing `l[-i]` (negative index `-i`, `i > 0`). -/
def pyIndexNegE {α : Type} (l : List α) (i : Nat) : Except PyErr α :=
  if l.length < i then Except.error PyErr.indexError
  else pyIndexE l (l.length - i)

/-- Body of `parse_log_line` (both files, identical): the `try` block with the
fallible index operations made explicit in the `Except` monad. -/
def parseRun (line : String) : Except PyErr (Option Record) :=
  if hasMarker line.data = false then Except.ok none
  else
    let pieces :=
      match splitFirst markerGT line.data with
      | some (a, b) => [a, b]
      | none => [line.data]
    match pyIndexE pieces 1 with
    | Except.error e => Except.error e
    | Except.ok tail0 =>
      let part := stripQuotes (stripWS tail0)
      let parts := splitSemi part
      if parts.length < 18 then Except.ok none
      else
        match pyIndexE parts 0 with
        | Except.error e => Except.error e
        | Except.ok f0 =>
          if stripWS f0 ≠ "BIG".data then Except.ok none
          else
            match pyIndexE parts 2, pyIndexE parts 6, pyIndexE parts 15,
                pyIndexNegE parts 2 with
            | Except.ok f2, Except.ok f6, Except.ok f15, Except.ok fst2 =>
              Except.ok (some
                { sensor_id := String.mk (upperStr (stripWS f2))
                  sp1 := String.mk (stripWS f6)
                  sp2 := String.mk (stripWS f15)
                  state := String.mk (stripWS fst2) })
            | Except.error e, _, _, _ => Except.error e
            | _, Except.error e, _, _ => Except.error e
            | _, _, Except.error e, _ => Except.error e
            | _, _, _, Except.error e => Except.error e

/-- The same extraction written with total list operations; `parseRun` is
proved to agree with it (no index error is reachable). -/
def parsePipeline (line : String) : Option Record :=
  match splitFirst markerGT line.data with
  | none => none
  | some (_, tail0) =>
    if (splitSemi (stripQuotes (stripWS tail0))).length < 18 then none
    else if stripWS ((splitSemi (stripQuotes (stripWS tail0))).headD []) ≠ "BIG".data then
      none
    else some
      { sensor_id := String.mk (upperStr (stripWS ((splitSemi (stripQuotes (stripWS tail0))).getD 2 [])))
        sp1 := String.mk (stripWS ((splitSemi (stripQuotes (stripWS tail0))).getD 6 []))
        sp2 := String.mk (stripWS ((splitSemi (stripQuotes (stripWS tail0))).getD 15 []))
        state := String.mk (stripWS ((splitSemi (stripQuotes (stripWS tail0))).getD ((splitSemi (stripQuotes (stripWS tail0))).length - 2) [])) }

namespace LoggingTask

/-- `parse_log_line` from `src/logging_task/do_it_yourself.py`: the `try`
block with `except (IndexError, AttributeError): return None`. -/
def parse_log_line (line : String) : Option Record :=
  match parseRun line with
  | Except.ok r => r
  | Except.error PyErr.indexError => none
  | Except.error PyErr.attributeError => none

end LoggingTask

namespace Logging

/-- `parse_log_line` from `src/logging/do_it_yourself.py`: the `try` block
with a bare `except: return None`. -/
def parse_log_line (line : String) : Option Record :=
  match parseRun line with
  | Except.ok r => r
  | Except.error _ => none

end Logging

/-! Fault decoding: `process_error` in both files, and Python's `int`,
`format(-, "08b")` and `str.zfill` primitives it relies on. -/

/-- Digit run with single underscores between digits, after the first digit:
the tail of Python `int`'s accepted digit syntax. -/
def digitsTail (acc : Nat) : List Char → Option Nat
  | [] => some acc
  | c :: rest =>
    if c == '_' then
      match rest with
      | [] => none
      | c' :: rest' =>
        if isDig c' then digitsTail (10 * acc + digVal c') rest' else none
    else if isDig c then digitsTail (10 * acc + digVal c) rest
    else none

/-- Nonempty digit run with optional single underscores between digits. -/
def digitsU : List Char → Option Nat
  | [] => none
  | c :: rest => if isDig c then digitsTail (digVal c) rest else none

/-- Sign-and-digits part of Python `int`, applied after whitespace
stripping. -/
def pyIntCore : List Char → Option Int
  | [] => none
  | c :: rest =>
    if c == '+' then (digitsU rest).map fun n => (n : Int)
    else if c == '-' then (digitsU rest).map fun n => -(n : Int)
    else (digitsU (c :: rest)).map fun n => (n : Int)

/-- Python `int(s)` (base 10, ASCII fragment): strip whitespace, optional
sign, nonempty digit run with underscores between digits; `none` models
`ValueError`. -/
def pyInt (s : List Char) : Option Int := pyIntCore (stripWS s)

/-- Binary digits of `n`, most significant first (`fuel`-bounded structural
recursion; `fuel = n` suffices). -/
def toBinAux : Nat → Nat → List Char
  | 0, _ => []
  | _, 0 => []
  | fuel + 1, n + 1 =>
    toBinAux fuel ((n + 1) / 2) ++ [if (n + 1) % 2 == 1 then '1' else '0']

/-- Binary rendering of a natural number, as Python `format(n, "b")`. -/
def toBin (n : Nat) : List Char := if n = 0 then ['0'] else toBinAux n n

/-- Left-pad with `ch` to width `w` (no-op when already at least `w` long). -/
def padChar (ch : Char) (w : Nat) (l : List Char) : List Char :=
  List.replicate (w - l.length) ch ++ l

/-- Left-pad with zeros to length at least `w`. -/
def padZeros (w : Nat) (l : List Char) : List Char := padChar '0' w l

/-- Python `format(v, "08b")`: width 8 including the sign, zeros inserted
after a minus sign. -/
def format08b (v : Int) : List Char :=
  if v < 0 then '-' :: padChar '0' 7 (toBin (-v).toNat)
  else padChar '0' 8 (toBin v.toNat)

/-- The flag inspected by `process_error`: `format(v, "08b")[4] == "1"`. -/
def pyBit (v : Int) : Bool := (format08b v)[4]? == some '1'

/-- Python `s.zfill(w)`: pad with zeros on the left to width `w`, inserting
them after a leading sign character. -/
def pyZfill (w : Nat) (l : List Char) : List Char :=
  if w ≤ l.length then l
  else
    match l with
    | [] => List.replicate w '0'
    | c :: rest =>
      if c == '+' || c == '-' then c :: (List.replicate (w - l.length) '0' ++ rest)
      else List.replicate (w - l.length) '0' ++ l

def batteryMsg : String := "Battery device error"
def temperatureMsg : String := "Temperature device error"
def thresholdMsg : String := "Threshold central error"
def unknownMsg : String := "Unknown device error"

/-- First 2-character pair of the combined string. -/
def pair1 (c : List Char) : List Char := c.take 2
/-- Second 2-character pair of the combined string. -/
def pair2 (c : List Char) : List Char := (c.drop 2).take 2
/-- Third 2-character pair of the combined string. -/
def pair3 (c : List Char) : List Char := (c.drop 4).take 2

namespace LoggingTask

/-- The `for i in range(3)` loop of the task file's `process_error`, applied
to the padded 6-character string: pairs are parsed lazily, a set flag returns
before the later pairs are ever converted; `none` models an uncaught
`ValueError` from `int(pair)`. -/
def errLoop (c : List Char) : Option String :=
  match pyInt (pair1 c) with
  | none => none
  | some v1 =>
    if pyBit v1 then some batteryMsg
    else
      match pyInt (pair2 c) with
      | none => none
      | some v2 =>
        if pyBit v2 then some temperatureMsg
        else
          match pyInt (pair3 c) with
          | none => none
          | some v3 =>
            if pyBit v3 then some thresholdMsg else some unknownMsg

/-- `process_error` from `src/logging_task/do_it_yourself.py`:
`combined = (sp1[:-1] + sp2.lstrip("-")).zfill(6)[:6]` then the pair loop. -/
def process_error (sp1 sp2 : String) : Option String :=
  if sp1 = "" || sp2 = "" then some unknownMsg
  else
    errLoop ((pyZfill 6 (sp1.data.dropLast ++ sp2.data.dropWhile (· == '-'))).take 6)

end LoggingTask

namespace Logging

/-- The unrolled pair checks of the plain file's `process_error`: all three
pairs are converted with `int` before any flag is inspected. -/
def errChecks (c : List Char) : Option String :=
  match pyInt (pair1 c), pyInt (pair2 c), pyInt (pair3 c) with
  | some v1, some v2, some v3 =>
    some (if pyBit v1 then batteryMsg
      else if pyBit v2 then temperatureMsg
      else if pyBit v3 then thresholdMsg
      else unknownMsg)
  | _, _, _ => none

/-- `process_error` from `src/logging/do_it_yourself.py`: plain while-loop
left padding (no sign handling), truncate to 6, then the unrolled checks. -/
def process_error (sp1 sp2 : String) : Option String :=
  if sp1 = "" || sp2 = "" then some unknownMsg
  else
    errChecks ((padZeros 6 (sp1.data.dropLast ++ sp2.data.dropWhile (· == '-'))).take 6)

end Logging

/-! Reference fault decoder, following the words of spec section 4.2. -/

/-- The fault categories named by the spec. -/
inductive FaultReason where
  | Battery
  | Temperature
  | Threshold
  | Unknown
deriving DecidableEq, Repr

/-- Message text the code uses for each spec fault category. -/
def reasonMsg : FaultReason → String
  | FaultReason.Battery => batteryMsg
  | FaultReason.Temperature => temperatureMsg
  | FaultReason.Threshold => thresholdMsg
  | FaultReason.Unknown => unknownMsg

/-- Nonempty run of plain decimal digits (no underscores, no whitespace). -/
def digitsPlain (l : List Char) : Option Nat :=
  if l ≠ [] && l.all isDig then
    some (l.foldl (fun a c => 10 * a + digVal c) 0)
  else none

/-- Modelled from the spec: a 2-character pair "parses as a decimal integer"
(optional sign followed by plain digits). -/
def specPairVal : List Char → Option Int
  | [] => none
  | c :: rest =>
    if c == '+' then (digitsPlain rest).map fun n => (n : Int)
    else if c == '-' then (digitsPlain rest).map fun n => -(n : Int)
    else (digitsPlain (c :: rest)).map fun n => (n : Int)

/-- Modelled from the spec: the 8-bit binary rendering of a pair value in
0 - 255. -/
def bin8 (v : Int) : List Char := padChar '0' 8 (toBin v.toNat)

/-- Modelled from the spec: bit index 4 (0-indexed from the most significant
bit) of the pair's 8-bit binary string; an unparseable pair is treated as an
unset flag (the spec leaves it undefined). -/
def specBit (p : List Char) : Bool :=
  match specPairVal p with
  | some v => (bin8 v)[4]? == some '1'
  | none => false

/-- Modelled from the spec, section 4.2 steps 2 - 5: drop the final character
of `sp1`, strip leading minus signs from `sp2`, concatenate, left-pad with
zeros to length at least 6 and truncate to the first 6 characters. -/
def specCombined (sp1 sp2 : List Char) : List Char :=
  (padZeros 6 (sp1.dropLast ++ sp2.dropWhile (· == '-'))).take 6

/-- Modelled from the spec, steps 5 - 8: priority check over the three pairs. -/
def specPriority (c : List Char) : FaultReason :=
  if specBit (pair1 c) then FaultReason.Battery
  else if specBit (pair2 c) then FaultReason.Temperature
  else if specBit (pair3 c) then FaultReason.Threshold
  else FaultReason.Unknown

/-- Modelled from the spec: the full reference decoding algorithm of
section 4.2. -/
def decodeSpec (sp1 sp2 : String) : FaultReason :=
  if sp1 = "" || sp2 = "" then FaultReason.Unknown
  else specPriority (specCombined sp1.data sp2.data)

/-- The precondition of claim C2 on one pair: it parses as a decimal integer
in 0 - 255. -/
def specPairOK (p : List Char) : Bool :=
  match specPairVal p with
  | some v => 0 ≤ v && v ≤ 255
  | none => false

/-! The aggregator: the per-record loop of `process_file`, its end-of-stream
cleanup, and the returned statistics tuple.  The machinery is parametrised by
the fault decoder `pe`; both files instantiate it with their own
`process_error`. -/

/-- First-match association-list lookup: Python `d[k]` / `k in d` over an
insertion-ordered dictionary. -/
def alookup {β : Type} : List (String × β) → String → Option β
  | [], _ => none
  | (k, v) :: rest, id => if k = id then some v else alookup rest id

/-- In-place value update at a key, preserving insertion order. -/
def aupdate {β : Type} : List (String × β) → String → β → List (String × β)
  | [], _, _ => []
  | (k, v) :: rest, id, w =>
    if k = id then (k, w) :: rest else (k, v) :: aupdate rest id w

/-- The two dictionaries `process_file` builds while scanning the stream. -/
structure AggSt where
  success_messages : List (String × Nat)
  failed_sensors : List (String × String)
deriving DecidableEq, Repr

/-- One iteration of the `for line in f` loop body, after parsing: `none`
models an uncaught exception raised by the decoder `pe`. -/
def stepG (pe : String → String → Option String) (s : AggSt) (r : Record) :
    Option AggSt :=
  if r.state = "DD" then
    if alookup s.failed_sensors r.sensor_id = none then
      match pe r.sp1 r.sp2 with
      | none => none
      | some msg =>
        some { s with failed_sensors := s.failed_sensors ++ [(r.sensor_id, msg)] }
    else some s
  else if r.state = "02" then
    if alookup s.failed_sensors r.sensor_id = none then
      match alookup s.success_messages r.sensor_id with
      | some n =>
        some { s with success_messages := aupdate s.success_messages r.sensor_id (n + 1) }
      | none =>
        some { s with success_messages := s.success_messages ++ [(r.sensor_id, 1)] }
    else some s
  else some s

/-- The stream fold of `process_file` from a given state. -/
def runFoldG (pe : String → String → Option String) :
    AggSt → List Record → Option AggSt
  | s, [] => some s
  | s, r :: rest =>
    match stepG pe s r with
    | none => none
    | some s' => runFoldG pe s' rest

/-- The end-of-stream cleanup: delete from `success_messages` every sensor
that appears in `failed_sensors`. -/
def cleanup (s : AggSt) : AggSt :=
  { success_messages :=
      s.success_messages.filter fun p => (alookup s.failed_sensors p.1).isNone
    failed_sensors := s.failed_sensors }

/-- The statistics tuple returned by `process_file`. -/
structure Summary where
  all_devices : Nat
  successful_devices : Nat
  failed_devices : Nat
  failed_sensors : List (String × String)
  success_messages : List (String × Nat)
deriving DecidableEq, Repr

/-- Materialise the final `Summary` from the post-cleanup state. -/
def summarize (s : AggSt) : Summary :=
  { all_devices := s.success_messages.length + s.failed_sensors.length
    successful_devices := s.success_messages.length
    failed_devices := s.failed_sensors.length
    failed_sensors := s.failed_sensors
    success_messages := s.success_messages }

/-- The record-level aggregator of `process_file` over a stream of parsed
records, with decoder `pe`. -/
def processRecordsG (pe : String → String → Option String) (l : List Record) :
    Option Summary :=
  (runFoldG pe { success_messages := [], failed_sensors := [] } l).map
    fun s => summarize (cleanup s)

namespace LoggingTask

/-- `process_file`'s aggregation from `src/logging_task/do_it_yourself.py`,
at the level of parsed records. -/
def process_records (l : List Record) : Option Summary :=
  processRecordsG process_error l

/-- `process_file` on a list of raw lines: parse each line, skip rejected
ones, fold the records. -/
def process_lines (lines : List String) : Option Summary :=
  process_records (lines.filterMap parse_log_line)

end LoggingTask

namespace Logging

/-- `process_file`'s aggregation from `src/logging/do_it_yourself.py`, at the
level of parsed records. -/
def process_records (l : List Record) : Option Summary :=
  processRecordsG process_error l

end Logging

/-- The first record with state `"DD"` for a given sensor in the stream. -/
def firstDD (l : List Record) (id : String) : Option Record :=
  (l.filter fun r => r.sensor_id == id && r.state == "DD").head?

/-! Spec-following parser variants needed by claims C6 and C7. -/

/-- Modelled from the spec reading in claim C6: remove a single layer of
enclosing quote characters (at most one leading and one trailing `'`). -/
def stripOneQuote (l : List Char) : List Char :=
  let l1 := if l.head? == some '\'' then l.tail else l
  if l1.getLast? == some '\'' then l1.dropLast else l1

/-- The parse pipeline as claim C6 describes it: substring after the first
`"> "`, whitespace trimmed, one layer of quotes removed, then split on `";"`. -/
def parseOneQuote (line : String) : Option Record :=
  match splitFirst markerGT line.data with
  | none => none
  | some (_, tail0) =>
    if (splitSemi (stripOneQuote (stripWS tail0))).length < 18 then none
    else if stripWS ((splitSemi (stripOneQuote (stripWS tail0))).headD []) ≠ "BIG".data then
      none
    else some
      { sensor_id := String.mk (upperStr (stripWS ((splitSemi (stripOneQuote (stripWS tail0))).getD 2 [])))
        sp1 := String.mk (stripWS ((splitSemi (stripOneQuote (stripWS tail0))).getD 6 []))
        sp2 := String.mk (stripWS ((splitSemi (stripOneQuote (stripWS tail0))).getD 15 []))
        state := String.mk (stripWS ((splitSemi (stripOneQuote (stripWS tail0))).getD ((splitSemi (stripOneQuote (stripWS tail0))).length - 2) [])) }

/-- The amended pipeline of claim C6: identical, but with every leading and
trailing quote character removed, as the code's `strip("'")` does. -/
def parseAllQuote (line : String) : Option Record :=
  match splitFirst markerGT line.data with
  | none => none
  | some (_, tail0) =>
    if (splitSemi (stripQuotes (stripWS tail0))).length < 18 then none
    else if stripWS ((splitSemi (stripQuotes (stripWS tail0))).headD []) ≠ "BIG".data then
      none
    else some
      { sensor_id := String.mk (upperStr (stripWS ((splitSemi (stripQuotes (stripWS tail0))).getD 2 [])))
        sp1 := String.mk (stripWS ((splitSemi (stripQuotes (stripWS tail0))).getD 6 []))
        sp2 := String.mk (stripWS ((splitSemi (stripQuotes (stripWS tail0))).getD 15 []))
        state := String.mk (stripWS ((splitSemi (stripQuotes (stripWS tail0))).getD ((splitSemi (stripQuotes (stripWS tail0))).length - 2) [])) }

/-! Per-sensor view of the aggregator state, used to localise the fold:
each guard and each write of the loop body touches only the entries of the
current record's sensor, so the global fold projects onto an independent fold
for each sensor id. -/

/-- The fragment of the aggregator state owned by one sensor: its faulty
message, if any, and its healthy-occurrence count, if any. -/
def sview (s : AggSt) (id : String) : Option String × Option Nat :=
  (alookup s.failed_sensors id, alookup s.success_messages id)

/-- The loop body as seen by a single sensor's fragment. -/
def sstep (pe : String → String → Option String)
    (p : Option String × Option Nat) (r : Record) :
    Option (Option String × Option Nat) :=
  if r.state = "DD" then
    if p.1 = none then
      match pe r.sp1 r.sp2 with
      | none => none
      | some msg => some (some msg, p.2)
    else some p
  else if r.state = "02" then
    if p.1 = none then some (p.1, some (p.2.getD 0 + 1))
    else some p
  else some p

/-- The stream fold as seen by a single sensor's fragment. -/
def srun (pe : String → String → Option String) :
    Option String × Option Nat → List Record → Option (Option String × Option Nat)
  | p, [] => some p
  | p, r :: rest =>
    match sstep pe p r with
    | none => none
    | some p' => srun pe p' rest

/-- Key-uniqueness invariant of the two dictionaries. -/
def goodKeys (s : AggSt) : Prop :=
  (s.success_messages.map Prod.fst).Nodup ∧ (s.failed_sensors.map Prod.fst).Nodup

/-- The doubled-quote line on which the code's strip-all-quotes behaviour
differs from the claim's single-layer reading. -/
def qline : String := "a> ''BIG;x;ab;x;x;x;12;x;x;x;x;x;x;x;x;03;x;02;x''"

/-- The line whose third field is empty, yielding an empty sensor id. -/
def emptyIdLine : String := "b> BIG;x;;x;x;x;12;x;x;x;x;x;x;x;x;03;x;02;x"

/-- Witness stream for the aggregator claims: a first `"DD"` (empty status
fields decode to the unknown reason), a later `"02"`, a later `"DD"`. -/
def wStream : List Record :=
  [{ sensor_id := "A", sp1 := "", sp2 := "", state := "DD" },
   { sensor_id := "A", sp1 := "12", sp2 := "03", state := "02" },
   { sensor_id := "A", sp1 := "08x", sp2 := "0000", state := "DD" }]

/-- The summary the code produces on `wStream`. -/
def wSummary : Summary :=
  { all_devices := 1, successful_devices := 0, failed_devices := 1,
    failed_sensors := [("A", unknownMsg)], success_messages := [] }

/-! Helper lemmas about the fallible index operations and the parser body. -/

theorem pyIndexE_eq_getD {α : Type} (l : List α) (i : Nat) (d : α)
    (h : i < l.length) : pyIndexE l i = Except.ok (l.getD i d) := by
  unfold pyIndexE
  rw [List.getElem?_eq_getElem h]
  simp [List.getD_eq_getElem?_getD, List.getElem?_eq_getElem h]

theorem pyIndexNegE_eq_getD {α : Type} (l : List α) (d : α) (h : 2 ≤ l.length) :
    pyIndexNegE l 2 = Except.ok (l.getD (l.length - 2) d) := by
  unfold pyIndexNegE
  rw [if_neg (by omega)]
  exact pyIndexE_eq_getD l _ d (by omega)

theorem headD_eq_getD {α : Type} (l : List α) (d : α) : l.headD d = l.getD 0 d := by
  cases l <;> rfl

/-- The parser body never raises: it always reduces to the total pipeline. -/
theorem parseRun_eq (line : String) :
    parseRun line = Except.ok (parsePipeline line) := by
  unfold parseRun parsePipeline
  cases hs : splitFirst markerGT line.data with
  | none =>
    have hm : hasMarker line.data = false := by simp [hasMarker, hs]
    simp [hm]
  | some ab =>
    obtain ⟨a, b⟩ := ab
    have hm : hasMarker line.data = true := by simp [hasMarker, hs]
    have h1 : pyIndexE [a, b] 1 = Except.ok b := rfl
    simp only [hs, hm, Bool.true_eq_false, if_false, h1]
    by_cases h18 : (splitSemi (stripQuotes (stripWS b))).length < 18
    · simp [h18]
    · have hlen : 18 ≤ (splitSemi (stripQuotes (stripWS b))).length := by omega
      have h0 := pyIndexE_eq_getD (splitSemi (stripQuotes (stripWS b))) 0 [] (by omega)
      have h2 := pyIndexE_eq_getD (splitSemi (stripQuotes (stripWS b))) 2 [] (by omega)
      have h6 := pyIndexE_eq_getD (splitSemi (stripQuotes (stripWS b))) 6 [] (by omega)
      have h15 := pyIndexE_eq_getD (splitSemi (stripQuotes (stripWS b))) 15 [] (by omega)
      have hn2 := pyIndexNegE_eq_getD (splitSemi (stripQuotes (stripWS b))) [] (by omega)
      simp only [if_neg h18, h0, h2, h6, h15, hn2, headD_eq_getD]
      split <;> rfl

/-- Both wrappers agree with the total pipeline. -/
theorem parse_log_line_task_eq (line : String) :
    LoggingTask.parse_log_line line = parsePipeline line := by
  unfold LoggingTask.parse_log_line
  rw [parseRun_eq]

theorem parse_log_line_logging_eq (line : String) :
    Logging.parse_log_line line = parsePipeline line := by
  unfold Logging.parse_log_line
  rw [parseRun_eq]

theorem toNat_char_ofNat (n : Nat) (hv : n.isValidChar) : (Char.ofNat n).toNat = n := by
  unfold Char.ofNat
  rw [dif_pos hv]
  simp [Char.ofNatAux, Char.toNat, UInt32.toNat]

theorem toNat_toUpper_of_range (c : Char) (h : 97 ≤ c.toNat ∧ c.toNat ≤ 122) :
    (Char.toUpper c).toNat = c.toNat - 32 := by
  unfold Char.toUpper
  simp only [ge_iff_le, h, and_self, if_true]
  exact toNat_char_ofNat _ (Or.inl (by omega))

theorem toUpper_eq_self_of_not_range (c : Char)
    (h : ¬(97 ≤ c.toNat ∧ c.toNat ≤ 122)) : Char.toUpper c = c := by
  unfold Char.toUpper
  simp only [ge_iff_le, if_neg h]

theorem toUpper_idem (c : Char) : Char.toUpper (Char.toUpper c) = Char.toUpper c := by
  by_cases h : 97 ≤ c.toNat ∧ c.toNat ≤ 122
  · have h1 := toNat_toUpper_of_range c h
    exact toUpper_eq_self_of_not_range _ (by omega)
  · rw [toUpper_eq_self_of_not_range c h, toUpper_eq_self_of_not_range c h]

theorem upperStr_idem (l : List Char) : upperStr (upperStr l) = upperStr l := by
  induction l with
  | nil => rfl
  | cons c t ih =>
    simp only [upperStr, List.map_cons] at *
    rw [toUpper_idem]
    exact congrArg _ (by simpa [upperStr] using ih)

/-- C5: parser totality.  The parser body never raises (it always yields a
value, which both files' wrappers return unchanged), and lines missing the
marker, with fewer than 18 fields, or whose trimmed field 0 is not `"BIG"`,
are rejected with `none`. -/
theorem c5_parser_totality (line : String) :
    parseRun line = Except.ok (parsePipeline line) ∧
    LoggingTask.parse_log_line line = parsePipeline line ∧
    Logging.parse_log_line line = parsePipeline line ∧
    (hasMarker line.data = false → parsePipeline line = none) ∧
    (∀ a b, splitFirst markerGT line.data = some (a, b) →
      (splitSemi (stripQuotes (stripWS b))).length < 18 →
      parsePipeline line = none) ∧
    (∀ a b, splitFirst markerGT line.data = some (a, b) →
      stripWS ((splitSemi (stripQuotes (stripWS b))).headD []) ≠ "BIG".data →
      parsePipeline line = none) := by
  refine ⟨parseRun_eq line, parse_log_line_task_eq line,
    parse_log_line_logging_eq line, ?_, ?_, ?_⟩
  · intro hm
    unfold parsePipeline
    cases hsf : splitFirst markerGT line.data with
    | none => rfl
    | some ab =>
      have ht : hasMarker line.data = true := by simp [hasMarker, hsf]
      rw [hm] at ht
      simp at ht
  · intro a b hs h18
    unfold parsePipeline
    rw [hs]
    simp [h18]
  · intro a b hs hbig
    unfold parsePipeline
    rw [hs]
    by_cases h18 : (splitSemi (stripQuotes (stripWS b))).length < 18
    · simp [h18]
    · show (if _ then _ else if _ then _ else _) = _
      rw [if_neg h18, if_pos hbig]

/-- Witness for C5 at concrete rejected lines. -/
theorem c5_witness :
    parsePipeline "abc" = none ∧ LoggingTask.parse_log_line "> x" = none := by
  refine ⟨(c5_parser_totality "abc").2.2.2.1 (by decide), ?_⟩
  rw [(c5_parser_totality "> x").2.1]
  exact (c5_parser_totality "> x").2.2.2.2.1 [] "x".data (by decide) (by decide)

/-- C6 counterexample: on a payload enclosed in doubled quotes the code
accepts the line (all quote layers are removed) while the claimed
single-layer stripping would reject it. -/
theorem c6_counterexample :
    hasMarker qline.data = true ∧
    LoggingTask.parse_log_line qline =
      some { sensor_id := "AB", sp1 := "12", sp2 := "03", state := "02" } ∧
    parseOneQuote qline = none ∧
    LoggingTask.parse_log_line qline ≠ parseOneQuote qline := by
  refine ⟨by decide, by decide, by decide, by decide⟩

/-- C6 amended: for every line the parser removes ALL leading and trailing
quote characters after the whitespace trim (Python `strip("'")`), not a
single layer. -/
theorem c6_amended (line : String) :
    LoggingTask.parse_log_line line = parseAllQuote line ∧
    Logging.parse_log_line line = parseAllQuote line := by
  constructor
  · exact (parse_log_line_task_eq line).trans rfl
  · exact (parse_log_line_logging_eq line).trans rfl

/-- C7 counterexample: `parse` returns a record whose `sensor_id` is empty,
refuting the non-emptiness half of the claimed invariant. -/
theorem c7_counterexample :
    LoggingTask.parse_log_line emptyIdLine =
      some { sensor_id := "", sp1 := "12", sp2 := "03", state := "02" } := by
  decide

/-- C7 amended: every record returned by `parse` has a case-normalised
`sensor_id` (equal to its own uppercasing); non-emptiness does not hold. -/
theorem c7_amended (line : String) (r : Record)
    (h : LoggingTask.parse_log_line line = some r) :
    String.mk (upperStr r.sensor_id.data) = r.sensor_id := by
  rw [parse_log_line_task_eq] at h
  unfold parsePipeline at h
  split at h
  · exact absurd h (by simp)
  · split at h
    · exact absurd h (by simp)
    · split at h
      · exact absurd h (by simp)
      · obtain rfl : _ = r := Option.some_injective _ h
        exact congrArg String.mk (upperStr_idem _)

/-- Witness for C7's amended theorem at a concrete accepted line. -/
theorem c7_witness : String.mk (upperStr ("AB" : String).data) = "AB" :=
  c7_amended "a> BIG;x;ab;x;x;x;12;x;x;x;x;x;x;x;x;03;x;02;x"
    { sensor_id := "AB", sp1 := "12", sp2 := "03", state := "02" } (by decide)

/-- C9: the concrete parse-and-aggregate scenario of the spec. -/
theorem c9_concrete_scenario :
    LoggingTask.parse_log_line "a> BIG;x;ab;x;x;x;12;x;x;x;x;x;x;x;x;03;x;02;x" =
      some { sensor_id := "AB", sp1 := "12", sp2 := "03", state := "02" } ∧
    (splitSemi ("BIG;x;ab;x;x;x;12;x;x;x;x;x;x;x;x;03;x;02;x" : String).data).length = 19 ∧
    LoggingTask.process_lines ["a> BIG;x;ab;x;x;x;12;x;x;x;x;x;x;x;x;03;x;02;x"] =
      some { all_devices := 1, successful_devices := 1, failed_devices := 0,
             failed_sensors := [], success_messages := [("AB", 1)] } := by
  refine ⟨by decide, by decide, by decide⟩

/-! Association-list lemmas for the Python dictionaries. -/

theorem alookup_append {β : Type} (l : List (String × β)) (k id : String) (v : β) :
    alookup (l ++ [(k, v)]) id =
      match alookup l id with
      | some w => some w
      | none => if k = id then some v else none := by
  induction l with
  | nil => simp [alookup]
  | cons p rest ih =>
    obtain ⟨k', v'⟩ := p
    by_cases h : k' = id
    · simp [alookup, h]
    · simp only [List.cons_append, alookup, if_neg h]
      exact ih

theorem alookup_aupdate_ne {β : Type} (l : List (String × β)) (k id : String)
    (v : β) (h : id ≠ k) : alookup (aupdate l k v) id = alookup l id := by
  induction l with
  | nil => simp [alookup, aupdate]
  | cons p rest ih =>
    obtain ⟨k', v'⟩ := p
    by_cases hk : k' = k
    · subst hk
      simp [alookup, aupdate, if_neg (Ne.symm h)]
    · by_cases hid : k' = id
      · simp [alookup, aupdate, hk, hid, h]
      · simp [alookup, aupdate, hk, hid, ih]

theorem alookup_aupdate_self {β : Type} (l : List (String × β)) (k : String)
    (v : β) (h : alookup l k ≠ none) : alookup (aupdate l k v) k = some v := by
  induction l with
  | nil => simp [alookup] at h
  | cons p rest ih =>
    obtain ⟨k', v'⟩ := p
    by_cases hk : k' = k
    · simp [alookup, aupdate, hk]
    · simp only [alookup, if_neg hk] at h
      simp [alookup, aupdate, hk, ih h]

theorem aupdate_keys {β : Type} (l : List (String × β)) (k : String) (v : β) :
    (aupdate l k v).map Prod.fst = l.map Prod.fst := by
  induction l with
  | nil => rfl
  | cons p rest ih =>
    obtain ⟨k', v'⟩ := p
    by_cases hk : k' = k
    · simp [aupdate, hk]
    · simp [aupdate, hk, ih]

theorem alookup_eq_none_iff {β : Type} (l : List (String × β)) (id : String) :
    alookup l id = none ↔ id ∉ l.map Prod.fst := by
  induction l with
  | nil => simp [alookup]
  | cons p rest ih =>
    obtain ⟨k', v'⟩ := p
    by_cases hk : k' = id
    · simp [alookup, hk]
    · simp [alookup, hk, ih, Ne.symm hk]

theorem alookup_filter_key {β : Type} (l : List (String × β)) (g : String → Bool)
    (id : String) :
    alookup (l.filter fun p => g p.1) id =
      if g id then alookup l id else none := by
  induction l with
  | nil => simp [alookup]
  | cons p rest ih =>
    obtain ⟨k', v'⟩ := p
    by_cases hk : k' = id
    · subst hk
      by_cases hg : g k'
      · simp [alookup, hg, List.filter]
      · simp [alookup, hg, List.filter, ih]
    · by_cases hg : g k'
      · simp [alookup, hk, hg, List.filter, ih]
      · simp [alookup, hk, hg, List.filter, ih]

theorem length_eq_of_alookup_eq {β : Type} (m m' : List (String × β))
    (hm : (m.map Prod.fst).Nodup) (hm' : (m'.map Prod.fst).Nodup)
    (h : ∀ id, alookup m id = alookup m' id) : m.length = m'.length := by
  have hmem : ∀ id, id ∈ m.map Prod.fst ↔ id ∈ m'.map Prod.fst := by
    intro id
    have h1 := alookup_eq_none_iff m id
    have h2 := alookup_eq_none_iff m' id
    constructor
    · intro hin
      by_contra hnot
      have : alookup m' id = none := h2.mpr hnot
      rw [← h] at this
      exact (h1.mp this) hin
    · intro hin
      by_contra hnot
      have : alookup m id = none := h1.mpr hnot
      rw [h] at this
      exact (h2.mp this) hin
  have hperm : (m.map Prod.fst).Perm (m'.map Prod.fst) :=
    (List.perm_ext_iff_of_nodup hm hm').mpr hmem
  have := hperm.length_eq
  simpa using this

/-! Localisation of the aggregator fold onto single-sensor fragments. -/

theorem sstep_frozen (pe : String → String → Option String)
    (p : Option String × Option Nat) (r : Record) (msg : String)
    (h : p.1 = some msg) : sstep pe p r = some p := by
  unfold sstep
  by_cases hdd : r.state = "DD"
  · simp [hdd, h]
  · by_cases h02 : r.state = "02"
    · simp [hdd, h02, h]
    · simp [hdd, h02]

theorem step_view_self (pe : String → String → Option String) (s : AggSt)
    (r : Record) :
    (stepG pe s r).map (fun s' => sview s' r.sensor_id) =
      sstep pe (sview s r.sensor_id) r := by
  unfold stepG sstep sview
  by_cases hdd : r.state = "DD"
  · simp only [hdd, if_true]
    by_cases hlf : alookup s.failed_sensors r.sensor_id = none
    · simp only [hlf, if_true]
      cases hpe : pe r.sp1 r.sp2 with
      | none => simp
      | some msg => simp [alookup_append, hlf]
    · simp [hlf]
  · by_cases h02 : r.state = "02"
    · simp only [hdd, h02, if_false, if_true]
      by_cases hlf : alookup s.failed_sensors r.sensor_id = none
      · simp only [hlf, if_true]
        cases hsucc : alookup s.success_messages r.sensor_id with
        | none => simp [alookup_append, hsucc, hlf]
        | some n =>
          have hup := alookup_aupdate_self s.success_messages r.sensor_id (n + 1)
            (by simp [hsucc])
          simp [hup, hsucc, hlf]
      · simp [hlf]
    · simp [hdd, h02]

theorem step_view_other (pe : String → String → Option String) (s s' : AggSt)
    (r : Record) (id : String) (h : stepG pe s r = some s')
    (hne : id ≠ r.sensor_id) : sview s' id = sview s id := by
  unfold stepG at h
  by_cases hdd : r.state = "DD"
  · simp only [hdd, if_true] at h
    by_cases hlf : alookup s.failed_sensors r.sensor_id = none
    · simp only [hlf, if_true] at h
      cases hpe : pe r.sp1 r.sp2 with
      | none => rw [hpe] at h; cases h
      | some msg =>
        rw [hpe] at h
        obtain rfl : _ = s' := Option.some_injective _ h
        unfold sview
        simp [alookup_append, Ne.symm hne]
        cases halt : alookup s.failed_sensors id <;> simp
    · simp only [hlf, if_false] at h
      obtain rfl : s = s' := Option.some_injective _ h
      rfl
  · by_cases h02 : r.state = "02"
    · simp only [hdd, h02, if_false, if_true] at h
      by_cases hlf : alookup s.failed_sensors r.sensor_id = none
      · simp only [hlf, if_true] at h
        cases hsucc : alookup s.success_messages r.sensor_id with
        | none =>
          rw [hsucc] at h
          obtain rfl : _ = s' := Option.some_injective _ h
          unfold sview
          simp [alookup_append, Ne.symm hne]
          cases halt : alookup s.success_messages id <;> simp
        | some n =>
          rw [hsucc] at h
          obtain rfl : _ = s' := Option.some_injective _ h
          unfold sview
          simp [alookup_aupdate_ne _ _ _ _ hne]
      · simp only [hlf, if_false] at h
        obtain rfl : s = s' := Option.some_injective _ h
        rfl
    · simp only [hdd, h02, if_false] at h
      obtain rfl : s = s' := Option.some_injective _ h
      rfl

theorem runFold_view (pe : String → String → Option String) (l : List Record) :
    ∀ s s', runFoldG pe s l = some s' → ∀ id,
      srun pe (sview s id) (l.filter fun r => r.sensor_id == id) =
        some (sview s' id) := by
  induction l with
  | nil =>
    intro s s' h id
    obtain rfl : s = s' := Option.some_injective _ h
    rfl
  | cons r rest ih =>
    intro s s' h id
    unfold runFoldG at h
    cases hst : stepG pe s r with
    | none => rw [hst] at h; cases h
    | some s1 =>
      rw [hst] at h
      by_cases hid : r.sensor_id = id
      · subst hid
        have hview := step_view_self pe s r
        rw [hst] at hview
        have hsstep : sstep pe (sview s r.sensor_id) r = some (sview s1 r.sensor_id) := by
          rw [← hview]; rfl
        simp only [List.filter_cons, beq_self_eq_true, if_true, srun, hsstep]
        exact ih s1 s' h r.sensor_id
      · have hfil : (r.sensor_id == id) = false := by
          simp [hid]
        simp only [List.filter_cons, hfil, Bool.false_eq_true, if_false]
        rw [← step_view_other pe s s1 r id hst (Ne.symm hid)]
        exact ih s1 s' h id

theorem runFold_none (pe : String → String → Option String) (l : List Record) :
    ∀ s, runFoldG pe s l = none → ∃ id,
      srun pe (sview s id) (l.filter fun r => r.sensor_id == id) = none := by
  induction l with
  | nil => intro s h; cases h
  | cons r rest ih =>
    intro s h
    unfold runFoldG at h
    cases hst : stepG pe s r with
    | none =>
      refine ⟨r.sensor_id, ?_⟩
      have hview := step_view_self pe s r
      rw [hst] at hview
      have hsstep : sstep pe (sview s r.sensor_id) r = none := by
        rw [← hview]; rfl
      simp only [List.filter_cons, beq_self_eq_true, if_true, srun, hsstep]
    | some s1 =>
      rw [hst] at h
      obtain ⟨id, hid⟩ := ih s1 h
      refine ⟨id, ?_⟩
      by_cases hr : r.sensor_id = id
      · subst hr
        have hview := step_view_self pe s r
        rw [hst] at hview
        have hsstep : sstep pe (sview s r.sensor_id) r = some (sview s1 r.sensor_id) := by
          rw [← hview]; rfl
        simp only [List.filter_cons, beq_self_eq_true, if_true, srun, hsstep]
        exact hid
      · have hfil : (r.sensor_id == id) = false := by simp [hr]
        simp only [List.filter_cons, hfil, Bool.false_eq_true, if_false]
        rw [step_view_other pe s s1 r id hst (Ne.symm hr)] at hid
        exact hid

theorem step_goodKeys (pe : String → String → Option String) (s s' : AggSt)
    (r : Record) (h : stepG pe s r = some s') (hg : goodKeys s) : goodKeys s' := by
  unfold stepG at h
  by_cases hdd : r.state = "DD"
  · simp only [hdd, if_true] at h
    by_cases hlf : alookup s.failed_sensors r.sensor_id = none
    · simp only [hlf, if_true] at h
      cases hpe : pe r.sp1 r.sp2 with
      | none => rw [hpe] at h; cases h
      | some msg =>
        rw [hpe] at h
        obtain rfl : _ = s' := Option.some_injective _ h
        refine ⟨hg.1, ?_⟩
        have hnot : r.sensor_id ∉ s.failed_sensors.map Prod.fst :=
          (alookup_eq_none_iff _ _).mp hlf
        simp [List.nodup_append, hg.2, hnot]
    · simp only [hlf, if_false] at h
      obtain rfl : s = s' := Option.some_injective _ h
      exact hg
  · by_cases h02 : r.state = "02"
    · simp only [hdd, h02, if_false, if_true] at h
      by_cases hlf : alookup s.failed_sensors r.sensor_id = none
      · simp only [hlf, if_true] at h
        cases hsucc : alookup s.success_messages r.sensor_id with
        | none =>
          rw [hsucc] at h
          obtain rfl : _ = s' := Option.some_injective _ h
          refine ⟨?_, hg.2⟩
          have hnot : r.sensor_id ∉ s.success_messages.map Prod.fst :=
            (alookup_eq_none_iff _ _).mp hsucc
          simp [List.nodup_append, hg.1, hnot]
        | some n =>
          rw [hsucc] at h
          obtain rfl : _ = s' := Option.some_injective _ h
          exact ⟨by simp [aupdate_keys, hg.1], hg.2⟩
      · simp only [hlf, if_false] at h
        obtain rfl : s = s' := Option.some_injective _ h
        exact hg
    · simp only [hdd, h02, if_false] at h
      obtain rfl : s = s' := Option.some_injective _ h
      exact hg

theorem runFold_goodKeys (pe : String → String → Option String) (l : List Record) :
    ∀ s s', runFoldG pe s l = some s' → goodKeys s → goodKeys s' := by
  induction l with
  | nil =>
    intro s s' h hg
    obtain rfl : s = s' := Option.some_injective _ h
    exact hg
  | cons r rest ih =>
    intro s s' h hg
    unfold runFoldG at h
    cases hst : stepG pe s r with
    | none => rw [hst] at h; cases h
    | some s1 =>
      rw [hst] at h
      exact ih s1 s' h (step_goodKeys pe s s1 r hst hg)

theorem srun_frozen (pe : String → String → Option String) (m : List Record) :
    ∀ c p msg, srun pe (some msg, c) m = some p → p = (some msg, c) := by
  induction m with
  | nil =>
    intro c p msg h
    exact (Option.some_injective _ h).symm
  | cons r rest ih =>
    intro c p msg h
    unfold srun at h
    rw [sstep_frozen pe (some msg, c) r msg rfl] at h
    exact ih c p msg h

theorem srun_first_dd (pe : String → String → Option String) (m : List Record) :
    ∀ c p, srun pe (none, c) m = some p →
      ∀ r0, (m.filter fun r => r.state == "DD").head? = some r0 →
        ∃ msg, pe r0.sp1 r0.sp2 = some msg ∧ p.1 = some msg := by
  induction m with
  | nil => intro c p _ r0 h0; cases h0
  | cons r rest ih =>
    intro c p h r0 h0
    by_cases hdd : r.state = "DD"
    · have hfil : (r.state == "DD") = true := by simp [hdd]
      simp only [List.filter_cons, hfil, if_true, List.head?_cons] at h0
      obtain rfl : r = r0 := Option.some_injective _ h0
      unfold srun sstep at h
      simp only [hdd, if_true] at h
      cases hpe : pe r.sp1 r.sp2 with
      | none => rw [hpe] at h; cases h
      | some msg =>
        rw [hpe] at h
        have hfr := srun_frozen pe rest c p msg h
        refine ⟨msg, ?_, ?_⟩ <;> first | rfl | rw [hfr]
    · have hfil : (r.state == "DD") = false := by simp [hdd]
      simp only [List.filter_cons, hfil, Bool.false_eq_true, if_false] at h0
      unfold srun sstep at h
      by_cases h02 : r.state = "02"
      · simp only [hdd, h02, if_false, if_true] at h
        exact ih _ p h r0 h0
      · simp only [hdd, h02, if_false] at h
        exact ih c p h r0 h0

theorem alookup_cleanup (s : AggSt) (id : String) :
    alookup (cleanup s).success_messages id =
      if (alookup s.failed_sensors id).isNone then alookup s.success_messages id
      else none := by
  unfold cleanup
  exact alookup_filter_key s.success_messages
    (fun k => (alookup s.failed_sensors k).isNone) id

theorem runFold_ne_none (pe : String → String → Option String) (l : List Record) :
    ∀ s, (∀ r ∈ l, r.state = "DD" → pe r.sp1 r.sp2 ≠ none) →
      runFoldG pe s l ≠ none := by
  induction l with
  | nil => intro s _ hc; cases hc
  | cons r rest ih =>
    intro s h hc
    unfold runFoldG at hc
    cases hst : stepG pe s r with
    | some s1 =>
      rw [hst] at hc
      exact ih s1 (fun r' hr' => h r' (List.mem_cons_of_mem _ hr')) hc
    | none =>
      unfold stepG at hst
      by_cases hdd : r.state = "DD"
      · simp only [hdd, if_true] at hst
        by_cases hlf : alookup s.failed_sensors r.sensor_id = none
        · simp only [hlf, if_true] at hst
          cases hpe : pe r.sp1 r.sp2 with
          | none => exact h r (List.mem_cons_self r rest) hdd hpe
          | some msg => rw [hpe] at hst; cases hst
        · simp only [hlf, if_false] at hst; cases hst
      · by_cases h02 : r.state = "02"
        · simp only [hdd, h02, if_false, if_true] at hst
          by_cases hlf : alookup s.failed_sensors r.sensor_id = none
          · simp only [hlf, if_true] at hst
            cases hsucc : alookup s.success_messages r.sensor_id with
            | none => rw [hsucc] at hst; cases hst
            | some n => rw [hsucc] at hst; cases hst
          · simp only [hlf, if_false] at hst; cases hst
        · simp only [hdd, h02, if_false] at hst; cases hst

/-- C1: first-fault-wins stickiness.  For every record stream whose fold
completes, once a sensor has received a `"DD"` record it appears in the final
faulty map with the reason decoded from the FIRST `"DD"` record observed for
it, and it does not appear in the healthy map after cleanup — later `"DD"`
records cannot overwrite the reason and later `"02"` records are ignored. -/
theorem c1_first_fault_sticky (pe : String → String → Option String)
    (l : List Record) (id : String) (S : Summary)
    (hrun : processRecordsG pe l = some S)
    (hdd : ∃ r ∈ l, r.sensor_id = id ∧ r.state = "DD") :
    ∃ r0, firstDD l id = some r0 ∧
      ∃ msg, pe r0.sp1 r0.sp2 = some msg ∧
        alookup S.failed_sensors id = some msg ∧
        alookup S.success_messages id = none := by
  unfold processRecordsG at hrun
  cases hfold : runFoldG pe { success_messages := [], failed_sensors := [] } l with
  | none => rw [hfold] at hrun; cases hrun
  | some s =>
    rw [hfold] at hrun
    obtain rfl : _ = S := Option.some_injective _ hrun
    have hloc := runFold_view pe l _ s hfold id
    obtain ⟨r, hrmem, hrid, hrdd⟩ := hdd
    have hmemf : r ∈ (l.filter fun r => r.sensor_id == id).filter
        fun r => r.state == "DD" := by
      simp [List.mem_filter, hrmem, hrid, hrdd]
    cases hh : ((l.filter fun r => r.sensor_id == id).filter
        fun r => r.state == "DD").head? with
    | none =>
      rw [List.head?_eq_none_iff] at hh
      rw [hh] at hmemf
      cases hmemf
    | some r0 =>
      have hview0 : sview { success_messages := [], failed_sensors := [] } id =
          (none, none) := rfl
      rw [hview0] at hloc
      obtain ⟨msg, hpe, hfault⟩ := srun_first_dd pe _ none _ hloc r0 hh
      refine ⟨r0, ?_, msg, hpe, ?_, ?_⟩
      · unfold firstDD
        rw [← hh, List.filter_filter]
        congr 1
        exact List.filter_congr fun r _ => Bool.and_comm _ _
      · exact hfault
      · have hf : alookup s.failed_sensors id = some msg := hfault
        show alookup ((cleanup s).success_messages) id = none
        rw [alookup_cleanup]
        simp [hf]

/-- Witness for C1 on a concrete stream. -/
theorem c1_witness :
    ∃ r0, firstDD wStream "A" = some r0 ∧
      ∃ msg, LoggingTask.process_error r0.sp1 r0.sp2 = some msg ∧
        alookup wSummary.failed_sensors "A" = some msg ∧
        alookup wSummary.success_messages "A" = none :=
  c1_first_fault_sticky LoggingTask.process_error wStream "A" wSummary
    (by decide) ⟨{ sensor_id := "A", sp1 := "", sp2 := "", state := "DD" },
      by decide, rfl, rfl⟩

/-- C3: after the end-of-stream cleanup the faulty and healthy maps are
key-disjoint, and `total_devices` is the size of the healthy map plus the
size of the faulty map, which are exactly `healthy_count` and
`faulty_count`. -/
theorem c3_summary_consistency (pe : String → String → Option String)
    (l : List Record) (S : Summary) (hrun : processRecordsG pe l = some S) :
    (∀ id, alookup S.failed_sensors id = none ∨
      alookup S.success_messages id = none) ∧
    S.all_devices = S.success_messages.length + S.failed_sensors.length ∧
    S.all_devices = S.successful_devices + S.failed_devices ∧
    S.successful_devices = S.success_messages.length ∧
    S.failed_devices = S.failed_sensors.length := by
  unfold processRecordsG at hrun
  cases hfold : runFoldG pe { success_messages := [], failed_sensors := [] } l with
  | none => rw [hfold] at hrun; cases hrun
  | some s =>
    rw [hfold] at hrun
    obtain rfl : _ = S := Option.some_injective _ hrun
    refine ⟨?_, rfl, rfl, rfl, rfl⟩
    intro id
    cases hf : alookup s.failed_sensors id with
    | none => exact Or.inl hf
    | some w =>
      refine Or.inr ?_
      show alookup ((cleanup s).success_messages) id = none
      rw [alookup_cleanup]
      simp [hf]

/-- Witness for C3 on a concrete stream. -/
theorem c3_witness :
    (∀ id, alookup wSummary.failed_sensors id = none ∨
      alookup wSummary.success_messages id = none) ∧
    wSummary.all_devices =
      wSummary.success_messages.length + wSummary.failed_sensors.length ∧
    wSummary.all_devices = wSummary.successful_devices + wSummary.failed_devices ∧
    wSummary.successful_devices = wSummary.success_messages.length ∧
    wSummary.failed_devices = wSummary.failed_sensors.length :=
  c3_summary_consistency LoggingTask.process_error wStream wSummary (by decide)

/-- C4 counterexample: a single `"DD"` record whose pair strings are not
numeric makes `int(pair)` raise `ValueError`, which neither file catches
(`logging_task` catches only `OSError`, `logging` catches nothing), so the
aggregator fails instead of returning a summary. -/
theorem c4_counterexample :
    LoggingTask.process_records
        [{ sensor_id := "A", sp1 := "ax", sp2 := "bb", state := "DD" }] = none ∧
    Logging.process_records
        [{ sensor_id := "A", sp1 := "ax", sp2 := "bb", state := "DD" }] = none ∧
    LoggingTask.process_error "ax" "bb" = none := by
  refine ⟨by decide, by decide, by decide⟩

/-- C4 amended: the aggregator never fails provided every `"DD"` record's
status fields decode without an exception; malformed records at the parser
level are still dropped silently, but a `"DD"` record whose padded pairs are
not parseable integers raises and the fold fails. -/
theorem c4_amended (pe : String → String → Option String) (l : List Record)
    (h : ∀ r ∈ l, r.state = "DD" → pe r.sp1 r.sp2 ≠ none) :
    processRecordsG pe l ≠ none := by
  unfold processRecordsG
  cases hfold : runFoldG pe { success_messages := [], failed_sensors := [] } l with
  | none => exact absurd hfold (runFold_ne_none pe l _ h)
  | some s => simp

/-- Witness for the amended C4 on a concrete stream. -/
theorem c4_witness : LoggingTask.process_records wStream ≠ none :=
  c4_amended LoggingTask.process_error wStream (by decide)

/-- C8: cross-sensor order irrelevance.  Any reordering of the stream that
preserves the relative order of the records of each individual sensor yields
the same summary: same counts and the same faulty and healthy maps as
key-value functions. -/
theorem c8_order_irrelevance (pe : String → String → Option String)
    (l l' : List Record)
    (hf : ∀ id, l.filter (fun r => r.sensor_id == id) =
      l'.filter (fun r => r.sensor_id == id))
    (S : Summary) (hrun : processRecordsG pe l = some S) :
    ∃ S', processRecordsG pe l' = some S' ∧
      S'.all_devices = S.all_devices ∧
      S'.successful_devices = S.successful_devices ∧
      S'.failed_devices = S.failed_devices ∧
      (∀ id, alookup S'.failed_sensors id = alookup S.failed_sensors id) ∧
      (∀ id, alookup S'.success_messages id = alookup S.success_messages id) := by
  unfold processRecordsG at hrun ⊢
  cases hfold : runFoldG pe { success_messages := [], failed_sensors := [] } l with
  | none => rw [hfold] at hrun; cases hrun
  | some s =>
    rw [hfold] at hrun
    obtain rfl : _ = S := Option.some_injective _ hrun
    cases hfold' : runFoldG pe { success_messages := [], failed_sensors := [] } l' with
    | none =>
      obtain ⟨id, hid⟩ := runFold_none pe l' _ hfold'
      rw [← hf id] at hid
      rw [runFold_view pe l _ s hfold id] at hid
      cases hid
    | some s' =>
      have hview : ∀ id, sview s' id = sview s id := by
        intro id
        have h1 := runFold_view pe l _ s hfold id
        have h2 := runFold_view pe l' _ s' hfold' id
        rw [hf id] at h1
        rw [h1] at h2
        exact (Option.some_injective _ h2).symm
      have hfl : ∀ id, alookup s'.failed_sensors id = alookup s.failed_sensors id :=
        fun id => congrArg Prod.fst (hview id)
      have hsl : ∀ id, alookup s'.success_messages id = alookup s.success_messages id :=
        fun id => congrArg Prod.snd (hview id)
      have hg : goodKeys s :=
        runFold_goodKeys pe l _ s hfold ⟨List.nodup_nil, List.nodup_nil⟩
      have hg' : goodKeys s' :=
        runFold_goodKeys pe l' _ s' hfold' ⟨List.nodup_nil, List.nodup_nil⟩
      have hcl : ∀ id, alookup (cleanup s').success_messages id =
          alookup (cleanup s).success_messages id := by
        intro id
        rw [alookup_cleanup, alookup_cleanup, hfl id, hsl id]
      have hndc : ((cleanup s).success_messages.map Prod.fst).Nodup := by
        have hsub : List.Sublist ((cleanup s).success_messages.map Prod.fst)
            (s.success_messages.map Prod.fst) :=
          (List.filter_sublist _).map Prod.fst
        exact List.Nodup.sublist hsub hg.1
      have hndc' : ((cleanup s').success_messages.map Prod.fst).Nodup := by
        have hsub : List.Sublist ((cleanup s').success_messages.map Prod.fst)
            (s'.success_messages.map Prod.fst) :=
          (List.filter_sublist _).map Prod.fst
        exact List.Nodup.sublist hsub hg'.1
      have hlenf : s'.failed_sensors.length = s.failed_sensors.length :=
        length_eq_of_alookup_eq _ _ hg'.2 hg.2 hfl
      have hlens : (cleanup s').success_messages.length =
          (cleanup s).success_messages.length :=
        length_eq_of_alookup_eq _ _ hndc' hndc hcl
      refine ⟨summarize (cleanup s'), rfl, ?_, ?_, ?_, ?_, ?_⟩
      · show (cleanup s').success_messages.length + s'.failed_sensors.length =
          (cleanup s).success_messages.length + s.failed_sensors.length
        rw [hlens, hlenf]
      · exact hlens
      · exact hlenf
      · exact hfl
      · exact hcl

/-- Witness for C8: the identity reordering of the concrete stream. -/
theorem c8_witness :
    ∃ S', processRecordsG LoggingTask.process_error wStream = some S' ∧
      S'.all_devices = wSummary.all_devices ∧
      S'.successful_devices = wSummary.successful_devices ∧
      S'.failed_devices = wSummary.failed_devices ∧
      (∀ id, alookup S'.failed_sensors id = alookup wSummary.failed_sensors id) ∧
      (∀ id, alookup S'.success_messages id = alookup wSummary.success_messages id) :=
  c8_order_irrelevance LoggingTask.process_error wStream wStream
    (fun _ => rfl) wSummary (by decide)

/-! Character-class and digit-run lemmas for the decoder equivalences. -/

theorem isDig_bounds (c : Char) (h : isDig c = true) :
    48 ≤ c.toNat ∧ c.toNat ≤ 57 := by
  simpa [isDig] using h

theorem isDig_ne (c d : Char) (h : isDig c = true) (hd : isDig d = false) :
    c ≠ d := by
  intro he
  rw [he, hd] at h
  cases h

theorem isSpc_eq_false_of_isDig (c : Char) (h : isDig c = true) :
    isSpc c = false := by
  have h1 : (c == ' ') = false := by
    simp only [beq_eq_false_iff_ne]
    exact isDig_ne c ' ' h (by decide)
  have h2 : (c == '\t') = false := by
    simp only [beq_eq_false_iff_ne]
    exact isDig_ne c '\t' h (by decide)
  have h3 : (c == '\n') = false := by
    simp only [beq_eq_false_iff_ne]
    exact isDig_ne c '\n' h (by decide)
  have h4 : (c == '\r') = false := by
    simp only [beq_eq_false_iff_ne]
    exact isDig_ne c '\r' h (by decide)
  have h5 : (c == '\x0b') = false := by
    simp only [beq_eq_false_iff_ne]
    exact isDig_ne c '\x0b' h (by decide)
  have h6 : (c == '\x0c') = false := by
    simp only [beq_eq_false_iff_ne]
    exact isDig_ne c '\x0c' h (by decide)
  simp [isSpc, h1, h2, h3, h4, h5, h6]

theorem dropWhile_eq_self_of_all (p : Char → Bool) (l : List Char)
    (h : ∀ c ∈ l, p c = false) : l.dropWhile p = l := by
  cases l with
  | nil => rfl
  | cons c t => simp [List.dropWhile_cons, h c (List.mem_cons_self c t)]

theorem stripWS_eq_self (l : List Char) (h : ∀ c ∈ l, isSpc c = false) :
    stripWS l = l := by
  unfold stripWS
  rw [dropWhile_eq_self_of_all isSpc l h]
  rw [dropWhile_eq_self_of_all isSpc l.reverse (by
    intro c hc
    exact h c (List.mem_reverse.mp hc))]
  exact List.reverse_reverse l

theorem digitsTail_all_digits (t : List Char) :
    ∀ acc, (∀ c ∈ t, isDig c = true) →
      digitsTail acc t = some (t.foldl (fun a c => 10 * a + digVal c) acc) := by
  induction t with
  | nil => intro acc _; rfl
  | cons c t' ih =>
    intro acc h
    have hc : isDig c = true := h c (List.mem_cons_self c t')
    have hne : (c == '_') = false := by
      simp only [beq_eq_false_iff_ne]
      exact isDig_ne c '_' hc (by decide)
    rw [digitsTail.eq_def]
    simp only [hne, Bool.false_eq_true, if_false, hc, if_true, List.foldl_cons]
    exact ih _ (fun d hd => h d (List.mem_cons_of_mem c hd))

theorem digitsPlain_inv (l : List Char) (n : Nat) (h : digitsPlain l = some n) :
    l ≠ [] ∧ (∀ c ∈ l, isDig c = true) ∧
      n = l.foldl (fun a c => 10 * a + digVal c) 0 := by
  unfold digitsPlain at h
  by_cases hcond : (l ≠ [] && l.all isDig) = true
  · rw [if_pos hcond] at h
    obtain rfl : _ = n := Option.some_injective _ h
    simp only [Bool.and_eq_true, decide_eq_true_eq, List.all_eq_true] at hcond
    exact ⟨hcond.1, hcond.2, rfl⟩
  · rw [if_neg hcond] at h
    cases h

theorem digitsU_all_digits (l : List Char) (hne : l ≠ [])
    (h : ∀ c ∈ l, isDig c = true) :
    digitsU l = some (l.foldl (fun a c => 10 * a + digVal c) 0) := by
  cases l with
  | nil => exact absurd rfl hne
  | cons c t =>
    have hc : isDig c = true := h c (List.mem_cons_self c t)
    simp only [digitsU, hc, if_true, List.foldl_cons]
    rw [digitsTail_all_digits t (digVal c)
      (fun d hd => h d (List.mem_cons_of_mem c hd))]
    have : 10 * 0 + digVal c = digVal c := by omega
    rw [this]

theorem pyInt_of_specPairVal (p : List Char) (v : Int)
    (h : specPairVal p = some v) : pyInt p = some v := by
  cases p with
  | nil => cases h
  | cons c rest =>
    rw [specPairVal.eq_def] at h
    by_cases hplus : (c == '+') = true
    · simp only [hplus, if_true] at h
      cases hdp : digitsPlain rest with
      | none => rw [hdp] at h; cases h
      | some n =>
        rw [hdp] at h
        obtain ⟨hne, hall, hval⟩ := digitsPlain_inv rest n hdp
        have hceq : c = '+' := by simpa using hplus
        subst hceq
        have hsws : stripWS ('+' :: rest) = '+' :: rest := by
          refine stripWS_eq_self _ ?_
          intro d hd
          rcases List.mem_cons.mp hd with hd1 | hd2
          · rw [hd1]; decide
          · exact isSpc_eq_false_of_isDig d (hall d hd2)
        unfold pyInt
        rw [hsws, pyIntCore.eq_def]
        simp only [beq_self_eq_true, if_true]
        rw [digitsU_all_digits rest hne hall, ← hval]
        simpa using h
    · by_cases hminus : (c == '-') = true
      · simp only [hplus, Bool.false_eq_true, if_false, hminus, if_true] at h
        cases hdp : digitsPlain rest with
        | none => rw [hdp] at h; cases h
        | some n =>
          rw [hdp] at h
          obtain ⟨hne, hall, hval⟩ := digitsPlain_inv rest n hdp
          have hceq : c = '-' := by simpa using hminus
          subst hceq
          have hsws : stripWS ('-' :: rest) = '-' :: rest := by
            refine stripWS_eq_self _ ?_
            intro d hd
            rcases List.mem_cons.mp hd with hd1 | hd2
            · rw [hd1]; decide
            · exact isSpc_eq_false_of_isDig d (hall d hd2)
          unfold pyInt
          rw [hsws, pyIntCore.eq_def]
          simp only [show (('-' : Char) == '+') = false from by decide,
            Bool.false_eq_true, if_false, beq_self_eq_true, if_true]
          rw [digitsU_all_digits rest hne hall, ← hval]
          simpa using h
      · simp only [hplus, Bool.false_eq_true, if_false, hminus] at h
        cases hdp : digitsPlain (c :: rest) with
        | none => rw [hdp] at h; cases h
        | some n =>
          rw [hdp] at h
          obtain ⟨hne, hall, hval⟩ := digitsPlain_inv (c :: rest) n hdp
          have hsws : stripWS (c :: rest) = c :: rest := by
            refine stripWS_eq_self _ ?_
            intro d hd
            exact isSpc_eq_false_of_isDig d (hall d hd)
          unfold pyInt
          rw [hsws, pyIntCore.eq_def]
          simp only [hplus, Bool.false_eq_true, if_false, hminus]
          rw [digitsU_all_digits (c :: rest) hne hall, ← hval]
          simpa using h

theorem format08b_nonneg (v : Int) (h : 0 ≤ v) : format08b v = bin8 v := by
  unfold format08b bin8
  rw [if_neg (by omega)]

theorem specBit_eq_pyBit (p : List Char) (v : Int)
    (hsv : specPairVal p = some v) (hv : 0 ≤ v) : specBit p = pyBit v := by
  unfold specBit pyBit
  rw [hsv, format08b_nonneg v hv]

theorem pyBit_neg_digit_fin : ∀ n : Fin 10,
    pyBit (-(n.val : Int)) = pyBit (n.val : Int) := by decide

theorem pyBit_neg_digit (n : Nat) (h : n ≤ 9) :
    pyBit (-(n : Int)) = pyBit (n : Int) := by
  have := pyBit_neg_digit_fin ⟨n, by omega⟩
  simpa using this

theorem pyInt_zero_digit (r : Char) (h : isDig r = true) :
    pyInt ['0', r] = some ((digVal r : Nat) : Int) := by
  have hsws : stripWS ['0', r] = ['0', r] := by
    refine stripWS_eq_self _ ?_
    intro d hd
    rcases List.mem_cons.mp hd with hd1 | hd2
    · rw [hd1]; decide
    · rcases List.mem_cons.mp hd2 with hd3 | hd4
      · rw [hd3]; exact isSpc_eq_false_of_isDig r h
      · cases hd4
  unfold pyInt
  rw [hsws, pyIntCore.eq_def]
  simp only [show (('0' : Char) == '+') = false from by decide,
    show (('0' : Char) == '-') = false from by decide,
    Bool.false_eq_true, if_false]
  rw [digitsU_all_digits ['0', r] (by simp) (by
    intro d hd
    rcases List.mem_cons.mp hd with hd1 | hd2
    · rw [hd1]; decide
    · rcases List.mem_cons.mp hd2 with hd3 | hd4
      · rw [hd3]; exact h
      · cases hd4)]
  have : List.foldl (fun a c => 10 * a + digVal c) 0 ['0', r] = digVal r := by
    simp [List.foldl_cons, digVal]
  rw [this]
  rfl

theorem pyInt_sign_digit (sg r : Char) (w : Int)
    (hsg : sg = '+' ∨ sg = '-') (h : pyInt [sg, r] = some w) :
    isDig r = true ∧
      w = (if sg = '+' then ((digVal r : Nat) : Int) else -((digVal r : Nat) : Int)) := by
  have hsgspc : isSpc sg = false := by
    rcases hsg with hs | hs <;> rw [hs] <;> decide
  by_cases hr : isDig r = true
  · refine ⟨hr, ?_⟩
    have hsws : stripWS [sg, r] = [sg, r] := by
      refine stripWS_eq_self _ ?_
      intro d hd
      rcases List.mem_cons.mp hd with hd1 | hd2
      · rw [hd1]; exact hsgspc
      · rcases List.mem_cons.mp hd2 with hd3 | hd4
        · rw [hd3]; exact isSpc_eq_false_of_isDig r hr
        · cases hd4
    unfold pyInt at h
    rw [hsws, pyIntCore.eq_def] at h
    have hdu : digitsU [r] = some (digVal r) := by
      rw [digitsU_all_digits [r] (by simp) (by
        intro d hd
        rcases List.mem_cons.mp hd with hd1 | hd2
        · rw [hd1]; exact hr
        · cases hd2)]
      simp [List.foldl_cons, digVal]
    rcases hsg with hs | hs
    · subst hs
      simp only [beq_self_eq_true, if_true, hdu, Option.map_some] at h
      simp only [if_pos rfl]
      exact (Option.some_injective _ h).symm
    · subst hs
      simp only [show (('-' : Char) == '+') = false from by decide,
        Bool.false_eq_true, if_false, beq_self_eq_true, if_true, hdu,
        Option.map_some] at h
      simp only [if_neg (by decide : ¬('-' : Char) = '+')]
      exact (Option.some_injective _ h).symm
  · exfalso
    have hrd : isDig r = false := by
      cases hir : isDig r with
      | false => rfl
      | true => exact absurd hir hr
    by_cases hsp : isSpc r = true
    · have hsws : stripWS [sg, r] = [sg] := by
        unfold stripWS
        have h1 : List.dropWhile isSpc [sg, r] = [sg, r] := by
          simp [List.dropWhile_cons, hsgspc]
        rw [h1]
        have h2 : List.reverse [sg, r] = [r, sg] := by simp
        rw [h2]
        have h3 : List.dropWhile isSpc [r, sg] = [sg] := by
          simp [List.dropWhile_cons, hsp, hsgspc]
        rw [h3]
        simp
      unfold pyInt at h
      rw [hsws, pyIntCore.eq_def] at h
      rcases hsg with hs | hs <;> subst hs <;> simp [digitsU] at h
    · have hrspc : isSpc r = false := by
        cases hir : isSpc r with
        | false => rfl
        | true => exact absurd hir hsp
      have hsws : stripWS [sg, r] = [sg, r] := by
        refine stripWS_eq_self _ ?_
        intro d hd
        rcases List.mem_cons.mp hd with hd1 | hd2
        · rw [hd1]; exact hsgspc
        · rcases List.mem_cons.mp hd2 with hd3 | hd4
          · rw [hd3]; exact hrspc
          · cases hd4
      unfold pyInt at h
      rw [hsws, pyIntCore.eq_def] at h
      have hdu : digitsU [r] = none := by
        simp only [digitsU, hrd, Bool.false_eq_true, if_false]
      rcases hsg with hs | hs <;> subst hs <;>
        simp [hdu] at h

theorem specPairOK_inv (p : List Char) (h : specPairOK p = true) :
    ∃ v, specPairVal p = some v ∧ 0 ≤ v ∧ v ≤ 255 := by
  unfold specPairOK at h
  cases hsv : specPairVal p with
  | none => rw [hsv] at h; cases h
  | some v =>
    rw [hsv] at h
    simp only [Bool.and_eq_true, decide_eq_true_eq] at h
    exact ⟨v, rfl, h.1, h.2⟩

theorem errChecks_eq_spec (c : List Char)
    (h1 : specPairOK (pair1 c) = true) (h2 : specPairOK (pair2 c) = true)
    (h3 : specPairOK (pair3 c) = true) :
    Logging.errChecks c = some (reasonMsg (specPriority c)) := by
  obtain ⟨v1, hs1, hv1, _⟩ := specPairOK_inv _ h1
  obtain ⟨v2, hs2, hv2, _⟩ := specPairOK_inv _ h2
  obtain ⟨v3, hs3, hv3, _⟩ := specPairOK_inv _ h3
  have hp1 := pyInt_of_specPairVal _ _ hs1
  have hp2 := pyInt_of_specPairVal _ _ hs2
  have hp3 := pyInt_of_specPairVal _ _ hs3
  unfold Logging.errChecks specPriority
  rw [hp1, hp2, hp3, specBit_eq_pyBit _ _ hs1 hv1, specBit_eq_pyBit _ _ hs2 hv2,
    specBit_eq_pyBit _ _ hs3 hv3]
  by_cases b1 : pyBit v1 = true <;> by_cases b2 : pyBit v2 = true <;>
      by_cases b3 : pyBit v3 = true <;>
    simp [b1, b2, b3, reasonMsg]

theorem errLoop_eq_errChecks (c : List Char) (h : Logging.errChecks c ≠ none) :
    LoggingTask.errLoop c = Logging.errChecks c := by
  cases hp1 : pyInt (pair1 c) with
  | none =>
    exfalso
    apply h
    unfold Logging.errChecks
    rw [hp1]
  | some v1 =>
    cases hp2 : pyInt (pair2 c) with
    | none =>
      exfalso
      apply h
      unfold Logging.errChecks
      rw [hp1, hp2]
    | some v2 =>
      cases hp3 : pyInt (pair3 c) with
      | none =>
        exfalso
        apply h
        unfold Logging.errChecks
        rw [hp1, hp2, hp3]
      | some v3 =>
        unfold LoggingTask.errLoop Logging.errChecks
        rw [hp1, hp2, hp3]
        by_cases b1 : pyBit v1 = true <;> by_cases b2 : pyBit v2 = true <;>
            by_cases b3 : pyBit v3 = true <;>
          simp [b1, b2, b3]

theorem pyZfill_eq_padZeros_of_long (w : Nat) (l : List Char) (h : w ≤ l.length) :
    pyZfill w l = padZeros w l := by
  unfold pyZfill padZeros padChar
  rw [if_pos h]
  have h0 : w - l.length = 0 := by omega
  rw [h0]
  simp

theorem pyZfill_eq_padZeros_of_not_sign (w : Nat) (c : Char) (rest : List Char)
    (h : (c == '+' || c == '-') = false) :
    pyZfill w (c :: rest) = padZeros w (c :: rest) := by
  unfold pyZfill padZeros padChar
  by_cases hw : w ≤ (c :: rest).length
  · rw [if_pos hw]
    have h0 : w - (c :: rest).length = 0 := by omega
    rw [h0]
    simp
  · rw [if_neg hw]
    show (if (c == '+' || c == '-') = true then
        c :: (List.replicate (w - (c :: rest).length) '0' ++ rest)
      else List.replicate (w - (c :: rest).length) '0' ++ c :: rest) = _
    rw [if_neg (by simp [h] : ¬((c == '+' || c == '-') = true))]

theorem process_error_task_combined (sp1 sp2 : String) (h1 : ¬sp1 = "")
    (h2 : ¬sp2 = "") :
    LoggingTask.process_error sp1 sp2 =
      LoggingTask.errLoop
        ((pyZfill 6 (sp1.data.dropLast ++ sp2.data.dropWhile (· == '-'))).take 6) := by
  unfold LoggingTask.process_error
  simp [h1, h2]

theorem process_error_logging_combined (sp1 sp2 : String) (h1 : ¬sp1 = "")
    (h2 : ¬sp2 = "") :
    Logging.process_error sp1 sp2 =
      Logging.errChecks (specCombined sp1.data sp2.data) := by
  unfold Logging.process_error specCombined
  simp [h1, h2]

theorem decodeSpec_nonempty (sp1 sp2 : String) (h1 : ¬sp1 = "") (h2 : ¬sp2 = "") :
    decodeSpec sp1 sp2 = specPriority (specCombined sp1.data sp2.data) := by
  unfold decodeSpec
  simp [h1, h2]

/-- Core of the decoder equivalences: the task file's sign-aware `zfill`
padding with lazy pair checks agrees with the plain file's sign-oblivious
padding with eager pair checks whenever the latter does not raise.  When the
concatenated status string starts with a sign and needs padding, the two
padded strings differ, but every completing case yields equal pair values up
to a sign whose flag bit coincides. -/
theorem errLoop_zfill_eq_errChecks_pad (c0 : List Char)
    (h : Logging.errChecks ((padZeros 6 c0).take 6) ≠ none) :
    LoggingTask.errLoop ((pyZfill 6 c0).take 6) =
      Logging.errChecks ((padZeros 6 c0).take 6) := by
  cases c0 with
  | nil =>
    have he : pyZfill 6 ([] : List Char) = padZeros 6 [] := by decide
    rw [he]
    exact errLoop_eq_errChecks _ h
  | cons c rest =>
    by_cases hsign : (c == '+' || c == '-') = true
    · by_cases hlen : 6 ≤ (c :: rest).length
      · rw [pyZfill_eq_padZeros_of_long 6 _ hlen]
        exact errLoop_eq_errChecks _ h
      · have hc : c = '+' ∨ c = '-' := by
          simpa using hsign
        cases rest with
        | nil =>
          exfalso
          apply h
          rcases hc with hc1 | hc1 <;> subst hc1 <;> decide
        | cons r0 rest2 =>
          cases rest2 with
          | nil =>
            rcases hc with hc1 | hc1 <;> subst hc1
            · have hS : (padZeros 6 ['+', r0]).take 6 = ['0','0','0','0','+',r0] := rfl
              have hT : (pyZfill 6 ['+', r0]).take 6 = ['+','0','0','0','0',r0] := rfl
              rw [hS] at h ⊢
              rw [hT]
              have e1 : pyInt (pair1 ['0','0','0','0','+',r0]) = some 0 := rfl
              have e2 : pyInt (pair2 ['0','0','0','0','+',r0]) = some 0 := rfl
              cases hp3 : pyInt (pair3 ['0','0','0','0','+',r0]) with
              | none =>
                exfalso
                apply h
                unfold Logging.errChecks
                rw [e1, e2, hp3]
              | some w =>
                obtain ⟨hdig, hw⟩ := pyInt_sign_digit '+' r0 w (Or.inl rfl) hp3
                rw [if_pos rfl] at hw
                subst hw
                have t1 : pyInt (pair1 ['+','0','0','0','0',r0]) = some 0 := rfl
                have t2 : pyInt (pair2 ['+','0','0','0','0',r0]) = some 0 := rfl
                have t3 : pyInt (pair3 ['+','0','0','0','0',r0]) =
                    some ((digVal r0 : Nat) : Int) := pyInt_zero_digit r0 hdig
                unfold LoggingTask.errLoop Logging.errChecks
                rw [t1, t2, t3, e1, e2, hp3]
                have hb0 : pyBit 0 = false := by decide
                by_cases hb : pyBit ((digVal r0 : Nat) : Int) = true <;>
                  simp [hb, hb0]
            · have hS : (padZeros 6 ['-', r0]).take 6 = ['0','0','0','0','-',r0] := rfl
              have hT : (pyZfill 6 ['-', r0]).take 6 = ['-','0','0','0','0',r0] := rfl
              rw [hS] at h ⊢
              rw [hT]
              have e1 : pyInt (pair1 ['0','0','0','0','-',r0]) = some 0 := rfl
              have e2 : pyInt (pair2 ['0','0','0','0','-',r0]) = some 0 := rfl
              cases hp3 : pyInt (pair3 ['0','0','0','0','-',r0]) with
              | none =>
                exfalso
                apply h
                unfold Logging.errChecks
                rw [e1, e2, hp3]
              | some w =>
                obtain ⟨hdig, hw⟩ := pyInt_sign_digit '-' r0 w (Or.inr rfl) hp3
                rw [if_neg (by decide : ¬('-' : Char) = '+')] at hw
                subst hw
                have t1 : pyInt (pair1 ['-','0','0','0','0',r0]) = some 0 := rfl
                have t2 : pyInt (pair2 ['-','0','0','0','0',r0]) = some 0 := rfl
                have t3 : pyInt (pair3 ['-','0','0','0','0',r0]) =
                    some ((digVal r0 : Nat) : Int) := pyInt_zero_digit r0 hdig
                have hneg : pyBit (-((digVal r0 : Nat) : Int)) =
                    pyBit ((digVal r0 : Nat) : Int) := by
                  refine pyBit_neg_digit (digVal r0) ?_
                  have := isDig_bounds r0 hdig
                  unfold digVal
                  omega
                unfold LoggingTask.errLoop Logging.errChecks
                rw [t1, t2, t3, e1, e2, hp3]
                have hb0 : pyBit 0 = false := by decide
                by_cases hb : pyBit ((digVal r0 : Nat) : Int) = true <;>
                  simp [hb, hb0, hneg]
          | cons r1 rest3 =>
            cases rest3 with
            | nil =>
              exfalso
              apply h
              rcases hc with hc1 | hc1 <;> subst hc1
              · have hS : (padZeros 6 ['+', r0, r1]).take 6 =
                    ['0','0','0','+',r0,r1] := rfl
                rw [hS]
                have e1 : pyInt (pair1 ['0','0','0','+',r0,r1]) = some 0 := rfl
                have e2 : pyInt (pair2 ['0','0','0','+',r0,r1]) = none := rfl
                unfold Logging.errChecks
                rw [e1, e2]
              · have hS : (padZeros 6 ['-', r0, r1]).take 6 =
                    ['0','0','0','-',r0,r1] := rfl
                rw [hS]
                have e1 : pyInt (pair1 ['0','0','0','-',r0,r1]) = some 0 := rfl
                have e2 : pyInt (pair2 ['0','0','0','-',r0,r1]) = none := rfl
                unfold Logging.errChecks
                rw [e1, e2]
            | cons r2 rest4 =>
              cases rest4 with
              | nil =>
                rcases hc with hc1 | hc1 <;> subst hc1
                · have hS : (padZeros 6 ['+', r0, r1, r2]).take 6 =
                      ['0','0','+',r0,r1,r2] := rfl
                  have hT : (pyZfill 6 ['+', r0, r1, r2]).take 6 =
                      ['+','0','0',r0,r1,r2] := rfl
                  rw [hS] at h ⊢
                  rw [hT]
                  have e1 : pyInt (pair1 ['0','0','+',r0,r1,r2]) = some 0 := rfl
                  cases hp2 : pyInt (pair2 ['0','0','+',r0,r1,r2]) with
                  | none =>
                    exfalso
                    apply h
                    unfold Logging.errChecks
                    rw [e1, hp2]
                  | some w =>
                    obtain ⟨hdig, hw⟩ := pyInt_sign_digit '+' r0 w (Or.inl rfl) hp2
                    rw [if_pos rfl] at hw
                    subst hw
                    cases hp3 : pyInt (pair3 ['0','0','+',r0,r1,r2]) with
                    | none =>
                      exfalso
                      apply h
                      unfold Logging.errChecks
                      rw [e1, hp2, hp3]
                    | some v3 =>
                      have t1 : pyInt (pair1 ['+','0','0',r0,r1,r2]) = some 0 := rfl
                      have t2 : pyInt (pair2 ['+','0','0',r0,r1,r2]) =
                          some ((digVal r0 : Nat) : Int) := pyInt_zero_digit r0 hdig
                      have t3 : pyInt (pair3 ['+','0','0',r0,r1,r2]) = some v3 := hp3
                      unfold LoggingTask.errLoop Logging.errChecks
                      rw [t1, t2, t3, e1, hp2, hp3]
                      have hb0 : pyBit 0 = false := by decide
                      by_cases hb2 : pyBit ((digVal r0 : Nat) : Int) = true <;>
                          by_cases hb3 : pyBit v3 = true <;>
                        simp [hb2, hb3, hb0]
                · have hS : (padZeros 6 ['-', r0, r1, r2]).take 6 =
                      ['0','0','-',r0,r1,r2] := rfl
                  have hT : (pyZfill 6 ['-', r0, r1, r2]).take 6 =
                      ['-','0','0',r0,r1,r2] := rfl
                  rw [hS] at h ⊢
                  rw [hT]
                  have e1 : pyInt (pair1 ['0','0','-',r0,r1,r2]) = some 0 := rfl
                  cases hp2 : pyInt (pair2 ['0','0','-',r0,r1,r2]) with
                  | none =>
                    exfalso
                    apply h
                    unfold Logging.errChecks
                    rw [e1, hp2]
                  | some w =>
                    obtain ⟨hdig, hw⟩ := pyInt_sign_digit '-' r0 w (Or.inr rfl) hp2
                    rw [if_neg (by decide : ¬('-' : Char) = '+')] at hw
                    subst hw
                    cases hp3 : pyInt (pair3 ['0','0','-',r0,r1,r2]) with
                    | none =>
                      exfalso
                      apply h
                      unfold Logging.errChecks
                      rw [e1, hp2, hp3]
                    | some v3 =>
                      have t1 : pyInt (pair1 ['-','0','0',r0,r1,r2]) = some 0 := rfl
                      have t2 : pyInt (pair2 ['-','0','0',r0,r1,r2]) =
                          some ((digVal r0 : Nat) : Int) := pyInt_zero_digit r0 hdig
                      have t3 : pyInt (pair3 ['-','0','0',r0,r1,r2]) = some v3 := hp3
                      have hneg : pyBit (-((digVal r0 : Nat) : Int)) =
                          pyBit ((digVal r0 : Nat) : Int) := by
                        refine pyBit_neg_digit (digVal r0) ?_
                        have := isDig_bounds r0 hdig
                        unfold digVal
                        omega
                      unfold LoggingTask.errLoop Logging.errChecks
                      rw [t1, t2, t3, e1, hp2, hp3]
                      have hb0 : pyBit 0 = false := by decide
                      by_cases hb2 : pyBit ((digVal r0 : Nat) : Int) = true <;>
                          by_cases hb3 : pyBit v3 = true <;>
                        simp [hb2, hb3, hb0, hneg]
              | cons r3 rest5 =>
                cases rest5 with
                | nil =>
                  exfalso
                  apply h
                  rcases hc with hc1 | hc1 <;> subst hc1
                  · have hS : (padZeros 6 ['+', r0, r1, r2, r3]).take 6 =
                        ['0','+',r0,r1,r2,r3] := rfl
                    rw [hS]
                    have e1 : pyInt (pair1 ['0','+',r0,r1,r2,r3]) = none := rfl
                    unfold Logging.errChecks
                    rw [e1]
                  · have hS : (padZeros 6 ['-', r0, r1, r2, r3]).take 6 =
                        ['0','-',r0,r1,r2,r3] := rfl
                    rw [hS]
                    have e1 : pyInt (pair1 ['0','-',r0,r1,r2,r3]) = none := rfl
                    unfold Logging.errChecks
                    rw [e1]
                | cons r4 rest6 =>
                  exfalso
                  apply hlen
                  simp [List.length_cons]
    · have hsign' : (c == '+' || c == '-') = false := by
        cases hb : (c == '+' || c == '-') with
        | false => rfl
        | true => exact absurd hb hsign
      rw [pyZfill_eq_padZeros_of_not_sign 6 c rest hsign']
      exact errLoop_eq_errChecks _ h

/-- C2: both `process_error` implementations equal the reference algorithm
of spec section 4.2 — `Unknown` when either input is empty, and otherwise,
whenever each resulting 2-character pair parses as a decimal integer in
0 - 255, the priority decode of the three flag bits. -/
theorem c2_decoder_matches_spec (sp1 sp2 : String)
    (h : sp1 ≠ "" → sp2 ≠ "" →
      specPairOK (pair1 (specCombined sp1.data sp2.data)) = true ∧
      specPairOK (pair2 (specCombined sp1.data sp2.data)) = true ∧
      specPairOK (pair3 (specCombined sp1.data sp2.data)) = true) :
    LoggingTask.process_error sp1 sp2 = some (reasonMsg (decodeSpec sp1 sp2)) ∧
    Logging.process_error sp1 sp2 = some (reasonMsg (decodeSpec sp1 sp2)) := by
  by_cases he1 : sp1 = ""
  · constructor <;>
      simp [LoggingTask.process_error, Logging.process_error, decodeSpec, he1,
        reasonMsg]
  · by_cases he2 : sp2 = ""
    · constructor <;>
        simp [LoggingTask.process_error, Logging.process_error, decodeSpec, he2,
          reasonMsg]
    · obtain ⟨h1, h2, h3⟩ := h he1 he2
      have hec : Logging.errChecks
          ((padZeros 6 (sp1.data.dropLast ++ sp2.data.dropWhile (· == '-'))).take 6) =
            some (reasonMsg (specPriority (specCombined sp1.data sp2.data))) :=
        errChecks_eq_spec _ h1 h2 h3
      have hlog : Logging.process_error sp1 sp2 =
          some (reasonMsg (decodeSpec sp1 sp2)) := by
        rw [process_error_logging_combined sp1 sp2 he1 he2,
          decodeSpec_nonempty sp1 sp2 he1 he2]
        exact errChecks_eq_spec _ h1 h2 h3
      refine ⟨?_, hlog⟩
      rw [process_error_task_combined sp1 sp2 he1 he2,
        decodeSpec_nonempty sp1 sp2 he1 he2,
        errLoop_zfill_eq_errChecks_pad _ (by rw [hec]; simp)]
      exact hec

/-- Witness for C2 at the concrete status fields 12 / 03. -/
theorem c2_witness :
    LoggingTask.process_error "12" "03" = some (reasonMsg (decodeSpec "12" "03")) ∧
    Logging.process_error "12" "03" = some (reasonMsg (decodeSpec "12" "03")) :=
  c2_decoder_matches_spec "12" "03" (by decide)

/-- C10: the two files are extensionally equivalent — `parse_log_line`
agrees on every input line, and the two `process_error` versions agree on
every pair of inputs on which neither raises. -/
theorem c10_implementations_equivalent :
    (∀ line, LoggingTask.parse_log_line line = Logging.parse_log_line line) ∧
    (∀ sp1 sp2 : String, LoggingTask.process_error sp1 sp2 ≠ none →
      Logging.process_error sp1 sp2 ≠ none →
      LoggingTask.process_error sp1 sp2 = Logging.process_error sp1 sp2) := by
  constructor
  · intro line
    rw [parse_log_line_task_eq, parse_log_line_logging_eq]
  · intro sp1 sp2 _ hL
    by_cases he1 : sp1 = ""
    · simp [LoggingTask.process_error, Logging.process_error, he1]
    · by_cases he2 : sp2 = ""
      · simp [LoggingTask.process_error, Logging.process_error, he2]
      · rw [process_error_task_combined sp1 sp2 he1 he2,
          process_error_logging_combined sp1 sp2 he1 he2] at *
        unfold specCombined at hL ⊢
        exact errLoop_zfill_eq_errChecks_pad _ hL

/-- Witness for C10 at a concrete line and concrete status fields. -/
theorem c10_witness :
    LoggingTask.parse_log_line "a> BIG;x;ab;x;x;x;12;x;x;x;x;x;x;x;x;03;x;02;x" =
      Logging.parse_log_line "a> BIG;x;ab;x;x;x;12;x;x;x;x;x;x;x;x;03;x;02;x" ∧
    LoggingTask.process_error "12" "-50" = Logging.process_error "12" "-50" :=
  ⟨c10_implementations_equivalent.1 _,
   c10_implementations_equivalent.2 "12" "-50" (by decide) (by decide)⟩
